import Mathlib

/-!
Verification of the ethoscope core: the interactor state machines in
`src/ethoscope/tracking/interactors.py` and the orchestration loop in
`src/ethoscope/core/monitor.py`, shallowly embedded in Lean 4.
Timestamps and coordinates are modelled as real numbers.
-/

namespace Ethoscope

open Classical

/-- One row of tracked state, mirroring the dict rows stored in a tracker's
`positions` list: cartesian coordinates plus the quantized displacement
metric `xy_dist_log10x1000` read by `IsMovingInteractor`. -/

structure PosRecord where
  x : ℝ
  y : ℝ
  xy_dist_log10x1000 : ℝ

instance : Inhabited PosRecord := ⟨⟨0, 0, 0⟩⟩

/-- The part of a tracking unit an interactor reads: `self._tracker.positions`
and `self._tracker.times`. -/

structure TrackerData where
  positions : List PosRecord
  times : List ℝ

/-- `positions[-1]`: the most recent record. -/

def lastRec (tr : TrackerData) : PosRecord :=
  tr.positions.getLastD default

/-- `positions[-2]`: the second most recent record. -/

def penultimateRec (tr : TrackerData) : PosRecord :=
  tr.positions.dropLast.getLastD default

/-- `t[-1]`: the most recent timestamp. -/

def lastTime (tr : TrackerData) : ℝ :=
  tr.times.getLastD 0

/-- `np.abs(xy_m - xy_mm)` where `xy_m`, `xy_mm` are the complex encodings of
the two most recent positions: the Euclidean displacement between them. -/

noncomputable def displacement (tr : TrackerData) : ℝ :=
  Real.sqrt (((lastRec tr).x - (penultimateRec tr).x) ^ 2 +
             ((lastRec tr).y - (penultimateRec tr).y) ^ 2)

/-- The `{"channel": self._channel}` result dict returned by
`SleepDepInteractor._run`. -/

structure SDAction where
  channel : ℕ
deriving DecidableEq

/-- Mutable state and configuration of a `SleepDepInteractor`:
`_t0` (start of the current inactivity streak, `None` encoded as `none`),
`_channel`, `_distance_threshold`, `_inactivity_time_threshold`. -/

structure SDState where
  t0 : Option ℝ
  channel : ℕ
  distance_threshold : ℝ
  inactivity_time_threshold : ℝ

/-- `SleepDepInteractor.__init__(channel, sd_interface)`: `_t0 = None`,
`_distance_threshold = 1e-2`, `_inactivity_time_threshold = 90`. -/

def sleepDepInit (channel : ℕ) : SDState :=
  { t0 := none
    channel := channel
    distance_threshold := 1e-2
    inactivity_time_threshold := 90 }

/-- `SleepDepInteractor._run`, as a function from interactor state and tracker
history to the returned `(interact, result)` pair and the updated state. -/

noncomputable def sleepDepRun (st : SDState) (tr : TrackerData) :
    (Bool × SDAction) × SDState :=
  if tr.positions.length < 2 then
    ((false, ⟨st.channel⟩), st)
  else if displacement tr < st.distance_threshold then
    match st.t0 with
    | none => ((false, ⟨st.channel⟩), { st with t0 := some (lastTime tr) })
    | some s =>
      if lastTime tr - s > st.inactivity_time_threshold then
        ((true, ⟨st.channel⟩), { st with t0 := none })
      else
        ((false, ⟨st.channel⟩), st)
  else
    ((false, ⟨st.channel⟩), { st with t0 := none })

/-- Mutable state and configuration of an `IsMovingInteractor`:
`_last_active`, `_speed_threshold`, `_sleep_dt_threshold`. -/

structure IMState where
  last_active : ℝ
  speed_threshold : ℝ
  sleep_dt_threshold : ℝ

/-- `IsMovingInteractor.__init__()`: `_last_active = 0`,
`_speed_threshold = 0.0025`, `_sleep_dt_threshold = 1000 * 60 * 5`. -/

def isMovingInit : IMState :=
  { last_active := 0
    speed_threshold := 0.0025
    sleep_dt_threshold := 1000 * 60 * 5 }

/-- The decoded displacement metric of `IsMovingInteractor._run`:
`dist = 10.0 ** (tail_m["xy_dist_log10x1000"] / 1000.0)`. -/

noncomputable def decodedDist (tr : TrackerData) : ℝ :=
  (10 : ℝ) ^ ((lastRec tr).xy_dist_log10x1000 / 1000)

/-- `IsMovingInteractor._run`: returns the `(HasInteractedVariable, {})` pair
(the boolean is `True` exactly when the subject is judged sleeping) and the
updated interactor state. -/

noncomputable def isMovingRun (st : IMState) (tr : TrackerData) :
    (Bool × Unit) × IMState :=
  if tr.positions.length < 2 then
    ((false, ()), st)
  else if decodedDist tr > st.speed_threshold then
    ((false, ()), { st with last_active := lastTime tr })
  else
    ((true, ()), st)

/-- The position `(x = 0, y = 0)`. -/

def recA : PosRecord := ⟨0, 0, 0⟩

/-- The position `(x = 0.001, y = 0.001)`. -/

noncomputable def recB : PosRecord := ⟨1 / 1000, 1 / 1000, 0⟩

/-- History after one frame: one record at `t = 0`. -/

def trOne : TrackerData := ⟨[recA], [0]⟩

/-- History after two frames: `(t=0, x=0, y=0)` then `(t=95, x=0.001, y=0.001)`. -/

noncomputable def trTwo : TrackerData := ⟨[recA, recB], [0, 95]⟩

/-- History after a third, motionless frame at `t = 190`. -/

noncomputable def trThree : TrackerData := ⟨[recA, recB, recB], [0, 95, 190]⟩

/-- A record whose quantized metric decodes to `10^3 = 1000` (moving). -/

def recFast : PosRecord := ⟨0, 0, 3000⟩

/-- A record whose quantized metric decodes to `10^-4 = 0.0001` (sleeping). -/

def recSlow : PosRecord := ⟨0, 0, -4000⟩

/-- Two-frame history ending in the fast record. -/

def trFast : TrackerData := ⟨[recA, recFast], [0, 10]⟩

/-- Two-frame history ending in the slow record. -/

def trSlow : TrackerData := ⟨[recA, recSlow], [0, 10]⟩

/-- A failure raised by the hardware actuation layer. -/

inductive HwErr where
  | deviceFailure
deriving DecidableEq

/-- An exception escaping an interactor invocation: the `ValueError` raised
when no tracker is bound, or an error propagating from the hardware
dispatch. -/

inductive CallErr where
  | unbound
  | hw (e : HwErr)
deriving DecidableEq

/-- `BaseInteractorSync.__call__`: raise if no tracker is bound, else run the
`_run` state machine and, when the decision is to act, perform the synchronous
`_interact` dispatch; an exception in the dispatch propagates to the caller.
Generic over the `_run` machine (`runF`) and the dispatch (`interactF`). -/

def syncCall {σ A T : Type} (runF : σ → T → (Bool × A) × σ)
    (interactF : A → Except HwErr Unit) (tracker : Option T) (st : σ) :
    Except CallErr ((Bool × A) × σ) :=
  match tracker with
  | none => .error .unbound
  | some tr =>
    let rs := runF st tr
    if rs.1.1 then
      match interactF rs.1.2 with
      | .error e => .error (.hw e)
      | .ok _ => .ok rs
    else .ok rs

/-- `BaseInteractor.__call__` (asynchronous prototype): raise if no tracker is
bound, else run `_run`; on an act decision `_interact_async` spawns the target
in a separate process unless one is already alive or no target is set. The
spawned action's own outcome is carried in the second component and is never
merged into the caller's result: a failure inside the spawned process cannot
raise in the caller. -/

def asyncCall {σ A T : Type} (runF : σ → T → (Bool × A) × σ)
    (target : Option (A → Except HwErr Unit)) (alive : Bool)
    (tracker : Option T) (st : σ) :
    Except CallErr ((Bool × σ) × Option (Except HwErr Unit)) :=
  match tracker with
  | none => .error .unbound
  | some tr =>
    let rs := runF st tr
    if rs.1.1 then
      if alive then .ok ((rs.1.1, rs.2), none)
      else
        match target with
        | none => .ok ((rs.1.1, rs.2), none)
        | some f => .ok ((rs.1.1, rs.2), some (f rs.1.2))
    else .ok ((rs.1.1, rs.2), none)

/-- A region of interest; for the orchestration claims only its stable
identifier `idx` matters. -/

structure ROI where
  idx : ℕ
deriving DecidableEq

/-- The exceptions `Monitor.__init__` can raise: `NotImplementedError` when
`rois` is `None`, `ValueError` when the stimulator count differs from the ROI
count. -/

inductive InitError where
  | roisMissing
  | countMismatch
deriving DecidableEq

/-- `Monitor.__init__`: raise if `rois is None`; build one tracking unit per
ROI with no interactor if `stimulators is None`; pair ROIs and stimulators
positionally if the counts agree; raise otherwise. The unit list is returned
as ROI/optional-stimulator pairs. -/

def monitorInit {S : Type} (rois : Option (List ROI))
    (stimulators : Option (List S)) :
    Except InitError (List (ROI × Option S)) :=
  match rois with
  | none => .error .roisMissing
  | some rs =>
    match stimulators with
    | none => .ok (rs.map fun r => (r, none))
    | some ss =>
      if ss.length = rs.length then
        .ok ((rs.zip ss).map fun p => (p.1, some p.2))
      else .error .countMismatch

/-- One tracking unit as the `run` loop consumes it, generic over the frame
type `F`, the data-row type `D` and the absolute-position type `P`: its ROI
identifier, the rows `track(t, frame)` returns, and the value
`get_last_positions(absolute=True)` returns afterwards. The tracking
algorithm itself is an external collaborator. -/

structure TUnit (F D P : Type) where
  roiIdx : ℕ
  track : ℝ → F → List D
  absPos : ℝ → F → P

/-- An entry of the Last-Positions Map: set to `[]` (empty) when the unit
produced no rows this frame, otherwise to the unit's absolute position. -/

inductive LPEntry (P : Type) where
  | empty
  | pos (p : P)

/-- The `_last_positions` dict: ROI identifier to entry, `none` meaning the
key is absent. -/

def LPMap (P : Type) := ℕ → Option (LPEntry P)

/-- Dict assignment `_last_positions[idx] = v`. -/

def setEntry {P : Type} (m : LPMap P) (k : ℕ) (v : LPEntry P) : LPMap P :=
  fun j => if j = k then some v else m j

/-- An observable call made by the `run` loop: pulling frame `i` from the
camera, `result_writer.write(t, roi, rows)` (recorded by timestamp and ROI
identifier), `result_writer.flush(t, frame)`, `drawer.draw(frame, ...)`. -/

inductive MEvent (F : Type) where
  | pull (i : ℕ) (t : ℝ) (frame : F)
  | write (t : ℝ) (roiIdx : ℕ)
  | flush (t : ℝ) (frame : F)
  | draw (frame : F)

/-- The body of `for data_rows, roi, abs_pos in trackingResults`: an empty row
list records an empty map entry and skips the writer; otherwise the map entry
becomes the absolute position and, when a writer is configured (`w`), a write
call is issued. -/

def frameStep {F D P : Type} (w : Bool) (t : ℝ)
    (acc : LPMap P × List (MEvent F)) (r : List D × ℕ × P) :
    LPMap P × List (MEvent F) :=
  match r.1 with
  | [] => (setEntry acc.1 r.2.1 .empty, acc.2)
  | _ :: _ =>
    (setEntry acc.1 r.2.1 (.pos r.2.2),
     acc.2 ++ if w then [.write t r.2.1] else [])

/-- One iteration of the `run` loop after the pull and stop check: the pool
barrier produces every unit's `(data_rows, roi, abs_pos)` triple for this
frame, the triples are folded over the Last-Positions Map and the writer,
then `flush` and `draw` are called if configured. -/

def processFrame {F D P : Type} (w d : Bool) (t : ℝ) (frame : F)
    (units : List (TUnit F D P)) (m : LPMap P) :
    LPMap P × List (MEvent F) :=
  let results := units.map fun u => (u.track t frame, u.roiIdx, u.absPos t frame)
  let acc := results.foldl (frameStep w t) (m, [])
  (acc.1,
   acc.2 ++ (if w then [.flush t frame] else []) ++ (if d then [.draw frame] else []))

/-- `Monitor.run` as a trace of observable calls: each iteration pulls the
next `(t, frame)` pair (with its enumeration index), then checks the stop
flag — breaking immediately if it is set — and otherwise processes the frame
and recurses with the updated Last-Positions Map. -/

def runLoop {F D P : Type} (w d : Bool) (units : List (TUnit F D P))
    (flag : ℕ → Bool) : ℕ → LPMap P → List (ℝ × F) → List (MEvent F)
  | _, _, [] => []
  | i, m, (t, frame) :: rest =>
    .pull i t frame ::
      (if flag i then []
       else
         (processFrame w d t frame units m).2 ++
           runLoop w d units flag (i + 1) (processFrame w d t frame units m).1 rest)

/-- `Monitor.run` from the initial state: frame index 0 and an empty
`_last_positions` dict. -/

def monitorRun {F D P : Type} (w d : Bool) (units : List (TUnit F D P))
    (flag : ℕ → Bool) (camera : List (ℝ × F)) : List (MEvent F) :=
  runLoop w d units flag 0 (fun _ => none) camera

/-- The observations of the cooperative stop flag when `stop()` is called
while frame `k` is being processed: the checks at iterations `0 .. k` read
`False`, every later check reads `True`. -/

def stopDuring (k i : ℕ) : Bool := decide (k < i)

/-- Reference trace, following the spec's per-iteration algorithm with no
stop request: every pulled frame is processed to completion. The stopped run
is compared against this trace. -/

def fullTrace {F D P : Type} (w d : Bool) (units : List (TUnit F D P)) :
    ℕ → LPMap P → List (ℝ × F) → List (MEvent F)
  | _, _, [] => []
  | i, m, (t, frame) :: rest =>
    .pull i t frame ::
      (processFrame w d t frame units m).2 ++
        fullTrace w d units (i + 1) (processFrame w d t frame units m).1 rest

/-- `True` exactly on writer calls for ROI `j`. -/

def isWriteFor {F : Type} (j : ℕ) : MEvent F → Bool
  | .write _ i => i == j
  | _ => false

/-- `True` exactly on writer calls. -/

def isWriteEv {F : Type} : MEvent F → Bool
  | .write _ _ => true
  | _ => false

/-- `True` exactly on flush calls. -/

def isFlushEv {F : Type} : MEvent F → Bool
  | .flush _ _ => true
  | _ => false

/-- The writer calls a frame's result list gives rise to, in order: one per
result with a non-empty row list, none if no writer is configured. -/

def writesOf {F D P : Type} (w : Bool) (t : ℝ)
    (results : List (List D × ℕ × P)) : List (MEvent F) :=
  if w then (results.filter fun r => !r.1.isEmpty).map fun r => .write t r.2.1
  else []

/-- The Last-Positions Map entry a result triple produces: empty for an empty
row list, the absolute position otherwise. -/

def entryOf {D P : Type} (r : List D × ℕ × P) : LPEntry P :=
  match r.1 with
  | [] => .empty
  | _ :: _ => .pos r.2.2

theorem sleepDepRun_short (st : SDState) (tr : TrackerData)
    (h : tr.positions.length < 2) :
    sleepDepRun st tr = ((false, ⟨st.channel⟩), st) := by
  unfold sleepDepRun
  rw [if_pos h]

theorem sleepDepRun_still_none (st : SDState) (tr : TrackerData)
    (h2 : 2 ≤ tr.positions.length)
    (hd : displacement tr < st.distance_threshold) (h0 : st.t0 = none) :
    sleepDepRun st tr = ((false, ⟨st.channel⟩), { st with t0 := some (lastTime tr) }) := by
  unfold sleepDepRun
  rw [if_neg (by omega), if_pos hd, h0]

theorem sleepDepRun_fire (st : SDState) (tr : TrackerData) (s : ℝ)
    (h2 : 2 ≤ tr.positions.length)
    (hd : displacement tr < st.distance_threshold) (h0 : st.t0 = some s)
    (ht : lastTime tr - s > st.inactivity_time_threshold) :
    sleepDepRun st tr = ((true, ⟨st.channel⟩), { st with t0 := none }) := by
  unfold sleepDepRun
  rw [if_neg (by omega), if_pos hd, h0]
  simp only [if_pos ht]

theorem sleepDepRun_wait (st : SDState) (tr : TrackerData) (s : ℝ)
    (h2 : 2 ≤ tr.positions.length)
    (hd : displacement tr < st.distance_threshold) (h0 : st.t0 = some s)
    (ht : ¬ lastTime tr - s > st.inactivity_time_threshold) :
    sleepDepRun st tr = ((false, ⟨st.channel⟩), st) := by
  unfold sleepDepRun
  rw [if_neg (by omega), if_pos hd, h0]
  simp only [if_neg ht]

theorem sleepDepRun_moving (st : SDState) (tr : TrackerData)
    (h2 : 2 ≤ tr.positions.length)
    (hd : ¬ displacement tr < st.distance_threshold) :
    sleepDepRun st tr = ((false, ⟨st.channel⟩), { st with t0 := none }) := by
  unfold sleepDepRun
  rw [if_neg (by omega), if_neg hd]

/-- Whenever an evaluation decides to act, it has also reset `_t0` to `None`. -/
theorem sleepDepRun_act_t0_none (st : SDState) (tr : TrackerData)
    (h : (sleepDepRun st tr).1.1 = true) :
    (sleepDepRun st tr).2.t0 = none := by
  by_cases h2 : tr.positions.length < 2
  · rw [sleepDepRun_short st tr h2] at h
    simp at h
  · by_cases hd : displacement tr < st.distance_threshold
    · cases h0 : st.t0 with
      | none =>
        rw [sleepDepRun_still_none st tr (by omega) hd h0] at h
        simp at h
      | some s =>
        by_cases ht : lastTime tr - s > st.inactivity_time_threshold
        · rw [sleepDepRun_fire st tr s (by omega) hd h0 ht]
        · rw [sleepDepRun_wait st tr s (by omega) hd h0 ht] at h
          simp at h
    · rw [sleepDepRun_moving st tr (by omega) hd] at h
      simp at h

/-- An evaluation started with `_t0 = None` never decides to act. -/
theorem sleepDepRun_t0_none_no_act (st : SDState) (tr : TrackerData)
    (h0 : st.t0 = none) : (sleepDepRun st tr).1.1 = false := by
  unfold sleepDepRun
  split
  · rfl
  · split
    · rw [h0]
    · rfl

theorem isMovingRun_short (st : IMState) (tr : TrackerData)
    (h : tr.positions.length < 2) :
    isMovingRun st tr = ((false, ()), st) := by
  unfold isMovingRun
  rw [if_pos h]

theorem isMovingRun_moving (st : IMState) (tr : TrackerData)
    (h2 : 2 ≤ tr.positions.length) (hd : decodedDist tr > st.speed_threshold) :
    isMovingRun st tr = ((false, ()), { st with last_active := lastTime tr }) := by
  unfold isMovingRun
  rw [if_neg (by omega), if_pos hd]

theorem isMovingRun_sleeping (st : IMState) (tr : TrackerData)
    (h2 : 2 ≤ tr.positions.length) (hd : ¬ decodedDist tr > st.speed_threshold) :
    isMovingRun st tr = ((true, ()), st) := by
  unfold isMovingRun
  rw [if_neg (by omega), if_neg hd]

theorem displacement_trTwo_lt : displacement trTwo < 1e-2 := by
  unfold displacement lastRec penultimateRec trTwo recA recB
  simp [List.getLastD]
  rw [Real.sqrt_lt' (show (0:ℝ) < 1e-2 by norm_num)]
  norm_num

theorem displacement_trThree_lt : displacement trThree < 1e-2 := by
  unfold displacement lastRec penultimateRec trThree recA recB
  simp [List.getLastD]
  norm_num

theorem lastTime_trTwo : lastTime trTwo = 95 := by
  unfold lastTime trTwo
  simp [List.getLastD]

theorem lastTime_trThree : lastTime trThree = 190 := by
  unfold lastTime trThree
  simp [List.getLastD]

/-- C1: a bound `SleepDepInteractor` evaluation (i) with fewer than 2 records
returns no action and leaves `t0` unchanged; with the Euclidean displacement
between the two most recent records below `distance_threshold` it (ii) sets
`t0` to the latest timestamp when `t0` is unset, and (iii) when `t0` is set
and the latest timestamp exceeds it by more than `inactivity_time_threshold`
it resets `t0` and returns act with the channel; (iv) with displacement at or
above `distance_threshold` it resets `t0` and returns no action. -/
theorem claim1_sleepDep_transitions (st : SDState) (tr : TrackerData) :
    (tr.positions.length < 2 →
      sleepDepRun st tr = ((false, ⟨st.channel⟩), st)) ∧
    (2 ≤ tr.positions.length → displacement tr < st.distance_threshold →
      st.t0 = none →
      sleepDepRun st tr = ((false, ⟨st.channel⟩), { st with t0 := some (lastTime tr) })) ∧
    (∀ s : ℝ, 2 ≤ tr.positions.length → displacement tr < st.distance_threshold →
      st.t0 = some s → lastTime tr - s > st.inactivity_time_threshold →
      sleepDepRun st tr = ((true, ⟨st.channel⟩), { st with t0 := none })) ∧
    (2 ≤ tr.positions.length → st.distance_threshold ≤ displacement tr →
      sleepDepRun st tr = ((false, ⟨st.channel⟩), { st with t0 := none })) := by
  refine ⟨fun h => sleepDepRun_short st tr h,
          fun h2 hd h0 => sleepDepRun_still_none st tr h2 hd h0,
          fun s h2 hd h0 ht => sleepDepRun_fire st tr s h2 hd h0 ht,
          fun h2 hd => sleepDepRun_moving st tr h2 (not_lt.mpr hd)⟩

/-- Witness for C1: with `t0 = 0`, the default thresholds and the history
ending at `t = 95` with a 0.0014 displacement, the evaluation acts on
channel 3 and clears `t0`. -/
theorem claim1_sleepDep_transitions_witness :
    sleepDepRun ⟨some 0, 3, 1e-2, 90⟩ trTwo =
      ((true, ⟨3⟩), { t0 := none, channel := 3, distance_threshold := 1e-2,
                      inactivity_time_threshold := 90 }) := by
  exact (claim1_sleepDep_transitions ⟨some 0, 3, 1e-2, 90⟩ trTwo).2.2.1 0
    (by unfold trTwo; simp)
    displacement_trTwo_lt
    rfl
    (by rw [lastTime_trTwo]; norm_num)

/-- C2 counterexample: with the default thresholds (90 s, 0.01) and the
history `(t=0,x=0,y=0)` then `(t=95,x=0.001,y=0.001)`, the evaluation at
`t = 95` does NOT act: `t0` was still unset at that point, so the code merely
starts the streak, returning no action and setting `t0 = 95`. -/
theorem claim2_counterexample :
    (sleepDepRun (sleepDepRun (sleepDepInit 3) trOne).2 trTwo).1.1 = false ∧
    (sleepDepRun (sleepDepRun (sleepDepInit 3) trOne).2 trTwo).2.t0 = some 95 := by
  have h1 : (sleepDepRun (sleepDepInit 3) trOne).2 = sleepDepInit 3 := by
    rw [sleepDepRun_short _ _ (by unfold trOne; simp)]
  have h2 := sleepDepRun_still_none (sleepDepInit 3) trTwo
    (by unfold trTwo; simp) displacement_trTwo_lt rfl
  constructor
  · rw [h1, h2]
  · rw [h1, h2, lastTime_trTwo]

/-- C2 (amended): an evaluation that returns act always clears `t0`, so the
immediately following evaluation never acts (at most one act per streak), and
any evaluation whose displacement reaches `distance_threshold` resets `t0`.
In the concrete example (thresholds 90 s and 0.01, positions `(t=0,0,0)` then
`(t=95,0.001,0.001)`), the evaluation at `t = 95` returns no action and sets
`t0 = 95`; a further motionless evaluation at `t = 190` then acts. -/
theorem claim2_amended_once_per_streak :
    (∀ (st : SDState) (tr tr' : TrackerData), (sleepDepRun st tr).1.1 = true →
      (sleepDepRun (sleepDepRun st tr).2 tr').1.1 = false) ∧
    (∀ (st : SDState) (tr : TrackerData), 2 ≤ tr.positions.length →
      st.distance_threshold ≤ displacement tr → (sleepDepRun st tr).2.t0 = none) ∧
    ((sleepDepRun (sleepDepRun (sleepDepInit 3) trOne).2 trTwo).1.1 = false ∧
     (sleepDepRun (sleepDepRun (sleepDepInit 3) trOne).2 trTwo).2.t0 = some 95 ∧
     (sleepDepRun (sleepDepRun (sleepDepRun (sleepDepInit 3) trOne).2 trTwo).2
        trThree).1.1 = true) := by
  have h1 : (sleepDepRun (sleepDepInit 3) trOne).2 = sleepDepInit 3 := by
    rw [sleepDepRun_short _ _ (by unfold trOne; simp)]
  have h2 := sleepDepRun_still_none (sleepDepInit 3) trTwo
    (by unfold trTwo; simp) displacement_trTwo_lt rfl
  refine ⟨fun st tr tr' h =>
            sleepDepRun_t0_none_no_act _ tr' (sleepDepRun_act_t0_none st tr h),
          fun st tr hl hd => by rw [sleepDepRun_moving st tr hl (not_lt.mpr hd)],
          ?_, ?_, ?_⟩
  · rw [h1, h2]
  · rw [h1, h2, lastTime_trTwo]
  · rw [h1, h2]
    rw [sleepDepRun_fire _ trThree (lastTime trTwo) (by unfold trThree; simp)
      displacement_trThree_lt rfl
      (by rw [lastTime_trTwo, lastTime_trThree]; unfold sleepDepInit; norm_num)]

/-- Witness for C2 (amended): after an act at `t = 95` from `t0 = 0`, the next
evaluation over the same history does not act again. -/
theorem claim2_amended_once_per_streak_witness :
    (sleepDepRun (sleepDepRun ⟨some 0, 3, 1e-2, 90⟩ trTwo).2 trTwo).1.1 = false :=
  claim2_amended_once_per_streak.1 ⟨some 0, 3, 1e-2, 90⟩ trTwo trTwo
    (by rw [sleepDepRun_fire _ trTwo 0 (by unfold trTwo; simp)
          displacement_trTwo_lt rfl (by rw [lastTime_trTwo]; norm_num)])

theorem decodedDist_trFast : decodedDist trFast = 1000 := by
  unfold decodedDist lastRec trFast recFast
  simp [List.getLastD]
  rw [show ((3000:ℝ)/1000) = ((3:ℕ):ℝ) by norm_num, Real.rpow_natCast]
  norm_num

theorem decodedDist_trSlow : decodedDist trSlow = 1/10000 := by
  unfold decodedDist lastRec trSlow recSlow
  simp [List.getLastD]
  rw [show ((-4000:ℝ)/1000) = ((-4:ℤ):ℝ) by norm_num, Real.rpow_intCast]
  norm_num

/-- C3: a bound `IsMovingInteractor` evaluation reports not-interacted on
fewer than 2 records; otherwise it decodes `10^(xy_dist_log10x1000/1000)`
from the most recent record and compares with `speed_threshold = 0.0025`:
strictly above reports not-interacted and sets `last_active` to the latest
timestamp, at-or-below reports interacted. Concretely, a metric of 3000 gives
not-interacted and a metric of -4000 gives interacted. -/
theorem claim3_isMoving_classification (st : IMState) (tr : TrackerData) :
    (tr.positions.length < 2 → isMovingRun st tr = ((false, ()), st)) ∧
    (2 ≤ tr.positions.length → decodedDist tr > st.speed_threshold →
      isMovingRun st tr = ((false, ()), { st with last_active := lastTime tr })) ∧
    (2 ≤ tr.positions.length → decodedDist tr ≤ st.speed_threshold →
      isMovingRun st tr = ((true, ()), st)) ∧
    ((isMovingRun isMovingInit trFast).1.1 = false ∧
     (isMovingRun isMovingInit trSlow).1.1 = true) := by
  refine ⟨fun h => isMovingRun_short st tr h,
          fun h2 hd => isMovingRun_moving st tr h2 hd,
          fun h2 hd => isMovingRun_sleeping st tr h2 (not_lt.mpr hd), ?_, ?_⟩
  · rw [isMovingRun_moving isMovingInit trFast (by unfold trFast; simp)
      (by rw [decodedDist_trFast]; unfold isMovingInit; norm_num)]
  · rw [isMovingRun_sleeping isMovingInit trSlow (by unfold trSlow; simp)
      (by rw [decodedDist_trSlow]; unfold isMovingInit; norm_num)]

/-- Witness for C3: on the fast history the evaluation reports not-interacted
and stamps `last_active` with the latest timestamp. -/
theorem claim3_isMoving_classification_witness :
    isMovingRun isMovingInit trFast =
      ((false, ()), { isMovingInit with last_active := lastTime trFast }) :=
  (claim3_isMoving_classification isMovingInit trFast).2.1
    (by unfold trFast; simp)
    (by rw [decodedDist_trFast]; unfold isMovingInit; norm_num)

/-- C10: an `IsMovingInteractor` evaluation never changes `speed_threshold`
or `sleep_dt_threshold`; `last_active` is set to the latest timestamp on the
moving branch only, and the state is left entirely unchanged on the
fewer-than-2-records branch and on the sleeping branch. -/
theorem claim10_isMoving_state_effect (st : IMState) (tr : TrackerData) :
    ((isMovingRun st tr).2.speed_threshold = st.speed_threshold) ∧
    ((isMovingRun st tr).2.sleep_dt_threshold = st.sleep_dt_threshold) ∧
    (tr.positions.length < 2 → (isMovingRun st tr).2 = st) ∧
    (2 ≤ tr.positions.length → decodedDist tr > st.speed_threshold →
      (isMovingRun st tr).2 = { st with last_active := lastTime tr }) ∧
    (2 ≤ tr.positions.length → ¬ decodedDist tr > st.speed_threshold →
      (isMovingRun st tr).2 = st) := by
  by_cases hl : tr.positions.length < 2
  · rw [isMovingRun_short st tr hl]
    exact ⟨rfl, rfl, fun _ => rfl, fun h2 _ => absurd hl (by omega),
           fun _ _ => rfl⟩
  · by_cases hd : decodedDist tr > st.speed_threshold
    · rw [isMovingRun_moving st tr (by omega) hd]
      exact ⟨rfl, rfl, fun h => absurd h hl, fun _ _ => rfl,
             fun _ hnd => absurd hd hnd⟩
    · rw [isMovingRun_sleeping st tr (by omega) hd]
      exact ⟨rfl, rfl, fun h => absurd h hl, fun _ hd2 => absurd hd2 hd,
             fun _ _ => rfl⟩

/-- Witness for C10: on the slow (sleeping) history the interactor state is
left entirely unchanged. -/
theorem claim10_isMoving_state_effect_witness :
    (isMovingRun ⟨7, 0.0025, 300000⟩ trSlow).2 = ⟨7, 0.0025, 300000⟩ :=
  (claim10_isMoving_state_effect ⟨7, 0.0025, 300000⟩ trSlow).2.2.2.2
    (by unfold trSlow; simp)
    (by rw [decodedDist_trSlow]; norm_num)

/-- C9: both the synchronous and the asynchronous base interactors raise the
unbound fault when invoked before `bind_tracker`, and once a tracker is bound
an invocation never fails for that reason. -/
theorem claim9_unbound_faults {σ A T : Type} (runF : σ → T → (Bool × A) × σ)
    (interactF : A → Except HwErr Unit)
    (target : Option (A → Except HwErr Unit)) (alive : Bool) (st : σ) :
    (syncCall runF interactF (none : Option T) st = .error .unbound) ∧
    (asyncCall runF target alive (none : Option T) st = .error .unbound) ∧
    (∀ tr : T, syncCall runF interactF (some tr) st ≠ .error .unbound) ∧
    (∀ tr : T, asyncCall runF target alive (some tr) st ≠ .error .unbound) := by
  refine ⟨rfl, rfl, fun tr => ?_, fun tr => ?_⟩
  · cases h : (runF st tr).1.1 with
    | false => simp [syncCall, h]
    | true =>
      cases hi : interactF (runF st tr).1.2 with
      | error e => simp [syncCall, h, hi]
      | ok u => simp [syncCall, h, hi]
  · cases h : (runF st tr).1.1 with
    | false => simp [asyncCall, h]
    | true =>
      cases alive with
      | true => simp [asyncCall, h]
      | false => cases target with
        | none => simp [asyncCall, h]
        | some f => simp [asyncCall, h]

/-- Witness for C9: a bound trivial interactor does not raise the unbound
fault. -/
theorem claim9_unbound_faults_witness :
    syncCall (fun (s : Unit) (_ : Unit) => ((false, ()), s))
      (fun _ => Except.ok ()) (some ()) () ≠ Except.error CallErr.unbound :=
  (claim9_unbound_faults (fun (s : Unit) (_ : Unit) => ((false, ()), s))
    (fun _ => Except.ok ()) none false ()).2.2.1 ()

/-- C6 counterexample: a synchronous `SleepDepInteractor` invocation that
decides to act does NOT absorb a hardware failure: with `t0 = 0`, the history
ending at `t = 95` and a dispatch that raises, the invocation raises. -/
theorem claim6_counterexample :
    syncCall sleepDepRun (fun _ => .error .deviceFailure) (some trTwo)
      (⟨some 0, 3, 1e-2, 90⟩ : SDState) = .error (.hw .deviceFailure) := by
  have hfire := sleepDepRun_fire ⟨some 0, 3, 1e-2, 90⟩ trTwo 0
    (by unfold trTwo; simp) displacement_trTwo_lt rfl
    (by rw [lastTime_trTwo]; norm_num)
  simp [syncCall, hfire]

/-- C6 (amended): for the synchronous interactor family an error raised by the
hardware dispatch on an act decision propagates out of the invocation; only
the asynchronous prototype isolates the dispatched action in a separate
process, so its failure never surfaces in the caller's result. -/
theorem claim6_amended_sync_propagates {σ A T : Type}
    (runF : σ → T → (Bool × A) × σ) (tr : T) (st : σ) (e : HwErr) :
    ((runF st tr).1.1 = true →
      syncCall runF (fun _ => .error e) (some tr) st = .error (.hw e)) ∧
    (∀ (target : Option (A → Except HwErr Unit)) (alive : Bool),
      (asyncCall runF target alive (some tr) st).isOk = true) := by
  constructor
  · intro h
    simp [syncCall, h]
  · intro target alive
    cases h : (runF st tr).1.1 with
    | false => simp [asyncCall, h, Except.isOk, Except.toBool]
    | true =>
      cases alive with
      | true => simp [asyncCall, h, Except.isOk, Except.toBool]
      | false => cases target with
        | none => simp [asyncCall, h, Except.isOk, Except.toBool]
        | some f => simp [asyncCall, h, Except.isOk, Except.toBool]

/-- Witness for C6 (amended): a firing sleep-deprivation evaluation with a
failing dispatch raises in the caller. -/
theorem claim6_amended_sync_propagates_witness :
    syncCall sleepDepRun (fun _ => .error HwErr.deviceFailure) (some trTwo)
      (⟨some 4, 2, 1e-2, 90⟩ : SDState) =
      .error (.hw HwErr.deviceFailure) :=
  (claim6_amended_sync_propagates sleepDepRun trTwo
      (⟨some 4, 2, 1e-2, 90⟩ : SDState) HwErr.deviceFailure).1
    (by rw [sleepDepRun_fire _ trTwo 4 (by unfold trTwo; simp)
          displacement_trTwo_lt rfl (by rw [lastTime_trTwo]; norm_num)])

/-- C5 counterexample: constructing a Monitor with an explicitly empty ROI
list and no interactors does NOT raise — the `rois is None` check passes and
an empty unit list is built — and the run loop tolerates the zero-unit
monitor at runtime: over one frame it still pulls, flushes and draws,
raising nothing. -/
theorem claim5_counterexample :
    monitorInit (some ([] : List ROI)) (none : Option (List Unit)) = .ok [] ∧
    monitorRun true true ([] : List (TUnit ℕ ℕ ℕ)) (fun _ => false) [(0, 0)] =
      [MEvent.pull 0 0 0, MEvent.flush 0 0, MEvent.draw 0] := by
  constructor
  · rfl
  · simp [monitorRun, runLoop, processFrame]

/-- C5 (amended): for every `n ≥ 1`, a Monitor with `n` ROIs and no
interactors is accepted; with `m ≠ n` interactors construction raises; with
the ROI list omitted (`None`) construction raises; but an explicitly empty
ROI list with no interactors is accepted at construction (zero ROIs are
tolerated, not rejected). -/
theorem claim5_amended_construction {S : Type} (n : ℕ) (rs : List ROI)
    (ss : List S) :
    (rs.length = n → 1 ≤ n →
      (monitorInit (some rs) (none : Option (List S))).isOk = true) ∧
    (rs.length = n → ss.length ≠ n →
      monitorInit (some rs) (some ss) = .error .countMismatch) ∧
    (monitorInit (none : Option (List ROI)) (some ss) = .error .roisMissing) ∧
    (monitorInit (none : Option (List ROI)) (none : Option (List S)) =
      .error .roisMissing) ∧
    (monitorInit (some ([] : List ROI)) (none : Option (List S)) = .ok []) := by
  refine ⟨fun _ _ => ?_, fun hn hm => ?_, rfl, rfl, rfl⟩
  · simp [monitorInit, Except.isOk, Except.toBool]
  · subst hn
    simp only [monitorInit]
    rw [if_neg hm]

/-- Witness for C5 (amended): one ROI with two stimulators raises the
count-mismatch error, and one ROI with no stimulators is accepted. -/
theorem claim5_amended_construction_witness :
    monitorInit (some [⟨0⟩]) (some [(), ()]) = .error .countMismatch ∧
    (monitorInit (some [⟨0⟩]) (none : Option (List Unit))).isOk = true :=
  ⟨(claim5_amended_construction 1 [⟨0⟩] [(), ()]).2.1 rfl (by decide),
   (claim5_amended_construction 1 [⟨0⟩] ([] : List Unit)).1 rfl (by decide)⟩

theorem frameStep_fst {F D P : Type} (w : Bool) (t : ℝ)
    (acc : LPMap P × List (MEvent F)) (r : List D × ℕ × P) :
    (frameStep w t acc r).1 = setEntry acc.1 r.2.1 (entryOf r) := by
  rcases r with ⟨rows, j, p⟩
  cases rows <;> rfl

theorem frameStep_fold_events {F D P : Type} (w : Bool) (t : ℝ)
    (results : List (List D × ℕ × P)) :
    ∀ (m : LPMap P) (evs : List (MEvent F)),
      (results.foldl (frameStep w t) (m, evs)).2 = evs ++ writesOf w t results := by
  induction results with
  | nil => intro m evs; simp [writesOf]
  | cons r rs ih =>
    intro m evs
    rw [List.foldl_cons]
    rcases r with ⟨rows, j, p⟩
    cases rows with
    | nil =>
      show (rs.foldl (frameStep w t) (setEntry m j .empty, evs)).2 = _
      rw [ih]
      congr 1
    | cons a as =>
      show (rs.foldl (frameStep w t)
        (setEntry m j (.pos p), evs ++ if w then [.write t j] else [])).2 = _
      rw [ih]
      unfold writesOf
      cases w <;> simp [List.filter_cons, List.append_assoc]

theorem frameStep_fold_map_notMem {F D P : Type} (w : Bool) (t : ℝ)
    (results : List (List D × ℕ × P)) :
    ∀ (acc : LPMap P × List (MEvent F)) (j : ℕ),
      j ∉ results.map (fun r => r.2.1) →
      (results.foldl (frameStep w t) acc).1 j = acc.1 j := by
  induction results with
  | nil => intro acc j _; rfl
  | cons r rs ih =>
    intro acc j hj
    simp only [List.map_cons, List.mem_cons, not_or] at hj
    rw [List.foldl_cons, ih _ j hj.2, frameStep_fst]
    unfold setEntry
    rw [if_neg hj.1]

theorem frameStep_fold_map_mem {F D P : Type} (w : Bool) (t : ℝ)
    (results : List (List D × ℕ × P)) :
    ∀ (acc : LPMap P × List (MEvent F)) (r : List D × ℕ × P),
      r ∈ results → (results.map (fun r => r.2.1)).Nodup →
      (results.foldl (frameStep w t) acc).1 r.2.1 = some (entryOf r) := by
  induction results with
  | nil => intro _ r h _; exact absurd h (List.not_mem_nil r)
  | cons r0 rs ih =>
    intro acc r hr hnd
    simp only [List.map_cons, List.nodup_cons] at hnd
    rw [List.foldl_cons]
    rcases List.mem_cons.mp hr with heq | hmem
    · subst heq
      rw [frameStep_fold_map_notMem w t rs _ r.2.1 hnd.1, frameStep_fst]
      unfold setEntry
      rw [if_pos rfl]
    · exact ih _ r hmem hnd.2

/-- C8: after `Monitor.run` processes a frame, the Last-Positions Map entry
for each unit's ROI identifier is present: set to the empty value when the
unit produced no rows this frame (never left absent, never a stale previous
value — the result does not depend on the incoming map `m`), and set to the
unit's absolute last position otherwise. -/
theorem claim8_last_positions_entry {F D P : Type} (w d : Bool) (t : ℝ)
    (frame : F) (units : List (TUnit F D P)) (m : LPMap P) (u : TUnit F D P)
    (hu : u ∈ units) (hnd : (units.map (fun v => v.roiIdx)).Nodup) :
    (processFrame w d t frame units m).1 u.roiIdx =
      some (match u.track t frame with
            | [] => LPEntry.empty
            | _ :: _ => LPEntry.pos (u.absPos t frame)) := by
  have hmem : (u.track t frame, u.roiIdx, u.absPos t frame) ∈
      units.map (fun v => (v.track t frame, v.roiIdx, v.absPos t frame)) :=
    List.mem_map_of_mem _ hu
  have hmap : (units.map (fun v => (v.track t frame, v.roiIdx, v.absPos t frame))).map
      (fun r => r.2.1) = units.map (fun v => v.roiIdx) := by
    rw [List.map_map]
    rfl
  have h := frameStep_fold_map_mem w t
    (units.map fun v => (v.track t frame, v.roiIdx, v.absPos t frame))
    (m, ([] : List (MEvent F))) _ hmem (by rw [hmap]; exact hnd)
  show (processFrame w d t frame units m).1 u.roiIdx =
      some (entryOf (u.track t frame, u.roiIdx, u.absPos t frame))
  exact h

/-- Witness for C8: of two units, the first producing no rows and the second
producing one, the map ends with an (explicitly present) empty entry at ROI 0
and the absolute position at ROI 1, over an initially empty map. -/
theorem claim8_last_positions_entry_witness :
    (processFrame true true 0 0
        [({ roiIdx := 0, track := fun _ _ => ([] : List ℕ),
            absPos := fun _ _ => (7 : ℕ) } : TUnit ℕ ℕ ℕ),
         { roiIdx := 1, track := fun _ _ => [5], absPos := fun _ _ => 42 }]
        (fun _ => none)).1 1 = some (LPEntry.pos 42) := by
  have h := claim8_last_positions_entry true true (0 : ℝ) (0 : ℕ)
    [({ roiIdx := 0, track := fun _ _ => ([] : List ℕ),
        absPos := fun _ _ => (7 : ℕ) } : TUnit ℕ ℕ ℕ),
     { roiIdx := 1, track := fun _ _ => [5], absPos := fun _ _ => 42 }]
    (fun _ => none)
    { roiIdx := 1, track := fun _ _ => [5], absPos := fun _ _ => 42 }
    (by simp) (by simp)
  exact h

theorem writesOf_true_cons {F D P : Type} (t : ℝ) (r : List D × ℕ × P)
    (rs : List (List D × ℕ × P)) :
    writesOf (F := F) true t (r :: rs) =
      (if r.1.isEmpty then [] else [MEvent.write t r.2.1]) ++
        writesOf true t rs := by
  unfold writesOf
  cases hr : r.1.isEmpty <;> simp [List.filter_cons, hr]

theorem writesOf_all_writes {F D P : Type} (w : Bool) (t : ℝ)
    (results : List (List D × ℕ × P)) :
    ∀ e ∈ writesOf (F := F) w t results, isWriteEv e = true := by
  unfold writesOf
  cases w
  · simp
  · intro e he
    simp only [if_true] at he
    rcases List.mem_map.mp he with ⟨r, _, rfl⟩
    rfl

theorem writesOf_filter_flush {F D P : Type} (w : Bool) (t : ℝ)
    (results : List (List D × ℕ × P)) :
    (writesOf (F := F) w t results).filter isFlushEv = [] := by
  rw [List.filter_eq_nil_iff]
  intro e he
  have := writesOf_all_writes w t results e he
  cases e <;> simp_all [isWriteEv, isFlushEv]

theorem filter_writes_notMem {F D P : Type} (t : ℝ) (frame : F)
    (units : List (TUnit F D P)) (j : ℕ)
    (hj : j ∉ units.map (fun v => v.roiIdx)) :
    (writesOf (F := F) true t
        (units.map fun v => (v.track t frame, v.roiIdx, v.absPos t frame))).filter
      (isWriteFor j) = [] := by
  induction units with
  | nil => rfl
  | cons v vs ih =>
    simp only [List.map_cons, List.mem_cons, not_or] at hj
    rw [List.map_cons, writesOf_true_cons, List.filter_append, ih hj.2]
    cases hv : (v.track t frame).isEmpty
    · simp only [hv, if_false]
      have : isWriteFor j (MEvent.write t v.roiIdx (F := F)) = false := by
        simp [isWriteFor]
        exact fun h => hj.1 h.symm
      simp [List.filter_cons, this]
    · simp

theorem filter_writes_mem {F D P : Type} (t : ℝ) (frame : F)
    (units : List (TUnit F D P)) (u : TUnit F D P)
    (hu : u ∈ units) (hnd : (units.map (fun v => v.roiIdx)).Nodup) :
    (writesOf (F := F) true t
        (units.map fun v => (v.track t frame, v.roiIdx, v.absPos t frame))).filter
      (isWriteFor u.roiIdx) =
      if (u.track t frame).isEmpty then [] else [MEvent.write t u.roiIdx] := by
  induction units with
  | nil => cases hu
  | cons v vs ih =>
    simp only [List.map_cons, List.nodup_cons] at hnd
    rw [List.map_cons, writesOf_true_cons, List.filter_append]
    rcases List.mem_cons.mp hu with heq | hmem
    · subst heq
      rw [filter_writes_notMem t frame vs u.roiIdx hnd.1]
      cases hv : (u.track t frame).isEmpty
      · simp only [hv, if_false]
        simp [List.filter_cons, isWriteFor]
      · simp [hv]
    · have hne : v.roiIdx ≠ u.roiIdx := by
        intro h
        exact hnd.1 (h ▸ List.mem_map_of_mem (fun w => w.roiIdx) hmem)
      have hfv : isWriteFor u.roiIdx (MEvent.write t v.roiIdx (F := F)) = false := by
        simp [isWriteFor]
        exact fun h => hne h
      rw [ih hmem hnd.2]
      cases hv : (v.track t frame).isEmpty
      · simp only [hv, if_false]
        simp [List.filter_cons, hfv]
      · simp

/-- C7 counterexample: with a writer and a drawer configured and a single unit
producing zero rows for the frame, `write` is invoked zero times for that
ROI — not exactly once per frame per ROI as claimed. -/
theorem claim7_counterexample :
    ((processFrame true true 0 0
        [({ roiIdx := 0, track := fun _ _ => ([] : List ℕ),
            absPos := fun _ _ => (0 : ℕ) } : TUnit ℕ ℕ ℕ)]
        (fun _ => none)).2.filter (isWriteFor 0)).length = 0 ∧
    ((processFrame true true 0 0
        [({ roiIdx := 0, track := fun _ _ => ([] : List ℕ),
            absPos := fun _ _ => (0 : ℕ) } : TUnit ℕ ℕ ℕ)]
        (fun _ => none)).2.filter (isWriteFor 0)).length ≠ 1 := by
  have h : (processFrame true true (0 : ℝ) (0 : ℕ)
      [({ roiIdx := 0, track := fun _ _ => ([] : List ℕ),
          absPos := fun _ _ => (0 : ℕ) } : TUnit ℕ ℕ ℕ)]
      (fun _ => none)).2 = [MEvent.flush 0 0, MEvent.draw 0] := by
    simp [processFrame, frameStep]
  rw [h]
  simp [isWriteFor]

/-- C7 (amended): with a writer and drawer configured, each frame produces
exactly one `write` per ROI whose unit returned at least one row — and none
for a ROI whose unit returned zero rows — followed by exactly one `flush` and
then one `draw`: the frame's event list is a block of writes, then the flush,
then the draw. -/
theorem claim7_amended_writer_calls {F D P : Type} (t : ℝ) (frame : F)
    (units : List (TUnit F D P)) (m : LPMap P) (u : TUnit F D P)
    (hu : u ∈ units) (hnd : (units.map (fun v => v.roiIdx)).Nodup) :
    ((processFrame true true t frame units m).2.filter (isWriteFor u.roiIdx) =
      if (u.track t frame).isEmpty then [] else [MEvent.write t u.roiIdx]) ∧
    ((processFrame true true t frame units m).2.filter isFlushEv =
      [MEvent.flush t frame]) ∧
    (∃ ws, (processFrame true true t frame units m).2 =
        ws ++ [MEvent.flush t frame, MEvent.draw frame] ∧
      ∀ e ∈ ws, isWriteEv e = true) := by
  have hev : (processFrame true true t frame units m).2 =
      writesOf true t
          (units.map fun v => (v.track t frame, v.roiIdx, v.absPos t frame)) ++
        [MEvent.flush t frame, MEvent.draw frame] := by
    show (((units.map fun v => (v.track t frame, v.roiIdx, v.absPos t frame)).foldl
        (frameStep true t) (m, [])).2 ++ _ ++ _) = _
    rw [frameStep_fold_events]
    simp
  refine ⟨?_, ?_, writesOf true t _, hev, writesOf_all_writes true t _⟩
  · rw [hev, List.filter_append, filter_writes_mem t frame units u hu hnd]
    simp [List.filter_cons, isWriteFor]
  · rw [hev, List.filter_append, writesOf_filter_flush]
    simp [List.filter_cons, isFlushEv]

/-- Witness for C7 (amended): one unit producing one row yields exactly one
write for its ROI, one flush, and a trailing draw. -/
theorem claim7_amended_writer_calls_witness :
    (processFrame true true 0 0
        [({ roiIdx := 2, track := fun _ _ => [9],
            absPos := fun _ _ => (1 : ℕ) } : TUnit ℕ ℕ ℕ)]
        (fun _ => none)).2.filter (isWriteFor 2) = [MEvent.write 0 2] := by
  have h := (claim7_amended_writer_calls (0 : ℝ) (0 : ℕ)
    [({ roiIdx := 2, track := fun _ _ => [9],
        absPos := fun _ _ => (1 : ℕ) } : TUnit ℕ ℕ ℕ)]
    (fun _ => none)
    { roiIdx := 2, track := fun _ _ => [9], absPos := fun _ _ => (1 : ℕ) }
    (by simp) (by simp)).1
  simpa using h

theorem runLoop_flag_true {F D P : Type} (w d : Bool)
    (units : List (TUnit F D P)) (k : ℕ) (camera : List (ℝ × F)) (n : ℕ)
    (m : LPMap P) (h : k < n) :
    runLoop w d units (stopDuring k) n m camera =
      match camera with
      | [] => []
      | (t, f) :: _ => [MEvent.pull n t f] := by
  cases camera with
  | nil => rfl
  | cons c rest =>
    rcases c with ⟨t, f⟩
    simp [runLoop, stopDuring, h]

theorem runLoop_stopDuring {F D P : Type} (w d : Bool)
    (units : List (TUnit F D P)) (k : ℕ) (camera : List (ℝ × F)) :
    ∀ (n : ℕ) (m : LPMap P), n ≤ k →
      runLoop w d units (stopDuring k) n m camera =
        fullTrace w d units n m (camera.take (k + 1 - n)) ++
          (match camera.drop (k + 1 - n) with
           | [] => []
           | (t, f) :: _ => [MEvent.pull (k + 1) t f]) := by
  induction camera with
  | nil =>
    intro n m _
    simp [runLoop, fullTrace]
  | cons c rest ih =>
    intro n m hn
    rcases c with ⟨t, f⟩
    have hk1 : k + 1 - n = (k - n) + 1 := by omega
    have hflag : stopDuring k n = false := by
      simp only [stopDuring, decide_eq_false_iff_not]
      omega
    rw [hk1, List.take_succ_cons, List.drop_succ_cons]
    show MEvent.pull n t f :: _ = _
    rw [hflag]
    show MEvent.pull n t f ::
        ((processFrame w d t f units m).2 ++
          runLoop w d units (stopDuring k) (n + 1)
            (processFrame w d t f units m).1 rest) = _
    by_cases hnk : n = k
    · subst hnk
      rw [runLoop_flag_true w d units n rest (n + 1) _ (by omega)]
      have h0 : n - n = 0 := by omega
      rw [h0, List.take_zero, List.drop_zero]
      cases rest with
      | nil => simp [fullTrace]
      | cons c' rest' =>
        rcases c' with ⟨t', f'⟩
        simp [fullTrace]
    · have hlt : n + 1 ≤ k := by omega
      rw [ih (n + 1) (processFrame w d t f units m).1 hlt]
      have hk2 : k + 1 - (n + 1) = k - n := by omega
      rw [hk2]
      simp [fullTrace, List.append_assoc]

/-- C4 counterexample: `stop()` requested while frame 0 is being processed
does not prevent the run from pulling frame 1 from the camera: the pull of
frame 1 occurs (at timestamp 7) before the stop flag is observed and the loop
breaks. -/
theorem claim4_counterexample :
    MEvent.pull 1 7 0 ∈
      monitorRun false false ([] : List (TUnit ℕ ℕ ℕ)) (stopDuring 0)
        [(5, 0), (7, 0)] := by
  have h : monitorRun false false ([] : List (TUnit ℕ ℕ ℕ)) (stopDuring 0)
      [(5, 0), (7, 0)] = [MEvent.pull 0 5 0, MEvent.pull 1 7 0] := by
    simp [monitorRun, runLoop, processFrame, stopDuring]
  rw [h]
  simp

/-- C4 (amended): if `stop()` is requested during frame `k` (so the flag is
observed set from the check of iteration `k+1` onward), the run processes
frames `0 .. k` to completion — the trace over those frames is exactly the
never-stopped reference trace, writer flush and drawer call included — and
then pulls frame `k+1` from the source (if the source yields one) before
terminating without processing it; the flag is observed only at iteration
boundaries, never mid-frame. -/
theorem claim4_amended_stop_after_pull {F D P : Type} (w d : Bool)
    (units : List (TUnit F D P)) (k : ℕ) (camera : List (ℝ × F)) :
    monitorRun w d units (stopDuring k) camera =
      fullTrace w d units 0 (fun _ => none) (camera.take (k + 1)) ++
        (match camera.drop (k + 1) with
         | [] => []
         | (t, f) :: _ => [MEvent.pull (k + 1) t f]) := by
  have h := runLoop_stopDuring w d units k camera 0 (fun _ => none)
    (Nat.zero_le k)
  simpa [monitorRun] using h

end Ethoscope
